import Mathlib

/-!
Verification development for the `fromenv` decoder core
(`fromenv/internal/loaders.py` and its helpers).

The decoder takes a flat mapping of uppercase string keys to string values
and materializes a typed, nested record value described by a schema of
composite types. This file gives a shallow embedding of the data model
(`Ty`, `Val`, `Value`, `VarBinding`, `Strategy`) and of the kind handlers
(`CustomLoader`, `OptionalLoader`, `BasicValueLoader`, `BooleanLoader`,
`DataClassLoader`, `UnionLoader`, `ListLoader`, `FixedLengthTupleLoader`,
`AnyLengthTupleLoader`) together with dispatch and the fueled recursive
interpreter `load` / `isPresent`, and proves the specification's claims
about them.

Conventions of the embedding:
- Python exceptions become `Except LoadError`; fuel exhaustion of the
  recursion is `Option.none` (Python recursion is unbounded; every claim
  is stated either for all fuels or at a concrete sufficient fuel).
- The mutable `VarBinding` becomes explicit state passing; the `bound`
  dict becomes an association list keyed by variable name and storing the
  claiming position's qualified name (the only attribute the source ever
  reads from a stored `Value`).
- Python truthiness tests are expanded at each site to the exact
  predicate they compute on the values that can occur there.
-/

namespace Fromenv

/-- Python values produced by the decoder (the decoder's output universe).
Floats are carried as their raw string: no claim depends on float
arithmetic, only on which loader handles the `float` type. -/
inductive Val where
  | vInt (n : Int)
  | vFloat (raw : String)
  | vStr (s : String)
  | vBool (b : Bool)
  | vNone
  | vList (items : List Val)
  | vTuple (items : List Val)
  | vRecord (name : String) (fields : List (String × Val))

/-- A custom parser installed through field metadata
(`Metadata.load` in `fromenv/model.py`): a function from the raw string
to a value, which may fail with a `ValueError` message. -/
def CustomFn : Type := String → Except String Val

/-- `fromenv.model.Metadata`: user-supplied field metadata. -/
structure Metadata where
  name : Option String := none
  load : Option CustomFn := none

/-- What may sit under the `fromenv` key of a dataclass field's metadata
mapping: either a plain string (shorthand for an override name) or a
`Metadata` object. `none` at the field models both "no `fromenv` key"
and "`fromenv` key mapped to `None`"
(`DataClassLoader._resolve_metadata`, loaders.py lines 266-278). -/
inductive MetaSpec where
  | asString (s : String)
  | asMeta (m : Metadata)

/-- `DataClassLoader._resolve_metadata`: convert the raw metadata entry to
a `Metadata` object. -/
def resolveMetadata : Option MetaSpec → Option Metadata
  | none => none
  | some (.asString s) => some { name := some s }
  | some (.asMeta m) => some m

mutual
/-- The schema universe: the Python type expressions the decoder
recognises. `union` covers both `typing.Union` and PEP-604 `X | Y`;
an optional type is a union having `noneType` among its alternatives
(`OptionalTypes.is_optional`). `record` is a dataclass. -/
inductive Ty where
  | int
  | float
  | str
  | bool
  | noneType
  | record (name : String) (fields : List Field)
  | union (alts : List Ty)
  | list (elem : Ty)
  | fixedTuple (elems : List Ty)
  | anyTuple (elem : Ty)

/-- A dataclass field: name, declared type, optional default (a value;
Python's default vs. default_factory distinction is immaterial in a pure
model) and the raw `fromenv` metadata entry. -/
inductive Field where
  | mk (name : String) (ty : Ty) (default : Option Val) (meta : Option MetaSpec)
end

def Field.name : Field → String
  | .mk n _ _ _ => n

def Field.ty : Field → Ty
  | .mk _ t _ _ => t

def Field.default : Field → Option Val
  | .mk _ _ d _ => d

def Field.meta : Field → Option MetaSpec
  | .mk _ _ _ m => m

/-- `DataClasses.has_default` (helpers/data_classes.py): the field has a
default value or a default factory. -/
def Field.hasDefault (f : Field) : Bool := f.default.isSome

/-- `Ty.isNoneTy t` holds exactly when `t` is `NoneType`; Python tests
this by identity (`subtype is types.NoneType`). -/
def Ty.isNoneTy : Ty → Bool
  | .noneType => true
  | _ => false

/-- `DataClasses.is_dataclass`: in the embedding, exactly the record kind. -/
def Ty.isDataclass : Ty → Bool
  | .record _ _ => true
  | _ => false

/-- `OptionalTypes.is_optional` (helpers/optionals.py): a union having
`NoneType` among its arguments. -/
def Ty.isOptional : Ty → Bool
  | .union alts => alts.any Ty.isNoneTy
  | _ => false

/-- `OptionalTypes.remove_optional` (helpers/optionals.py): drop the
`NoneType` alternatives; `typing.Union[(t,)]` collapses a singleton to
the bare type. -/
def Ty.removeOptional : Ty → Ty
  | .union alts =>
    match alts.filter (fun t => ¬ t.isNoneTy) with
    | [t] => t
    | ts => .union ts
  | t => t

/-- Loading errors (`fromenv/errors.py`). Python's distinct exception
classes become constructors; each carries the attributes the source
stores on the exception. -/
inductive LoadError where
  | missingRequiredVar (varName qualName : String)
  | ambiguousVar (varName firstQualName secondQualName : String)
  | invalidVariableFormat (varName qualName cause : String)
  | unsupportedValueType (qualName : String) (valueType : Ty)
  | unionLoadingError (qualName : String) (valueType : Ty)
  | notADataClass (name : String)

/-- `Config` (loaders.py lines 26-31): loading configuration. -/
structure Config where
  varPrefix : Option String := none
  sep : String := "_"

/-- `Value` (loaders.py lines 34-41): a position being decoded — its
schema type, variable key, qualified name, and inherited field
metadata. -/
structure Value where
  type : Ty
  varName : String
  qualName : String
  metadata : Option Metadata := none

/-- The env-vars mapping: ordered association list of (key, raw string);
keys are distinct in any actual environment. -/
def EnvVars : Type := List (String × String)

/-- `key in vars` of Python. -/
def EnvVars.hasKey (vars : EnvVars) (k : String) : Bool :=
  (vars.lookup k).isSome

/-- `vars[key]` of Python (`""` is unreachable under `hasKey`). -/
def EnvVars.get (vars : EnvVars) (k : String) : String :=
  (vars.lookup k).getD ""

/-- `VarBinding` (loaders.py lines 112-135): the binding ledger. `vars`
is the read-only raw input; `bound` maps each claimed variable key to
the qualified name of the first claiming position, in claim order. -/
structure VarBinding where
  vars : EnvVars
  bound : List (String × String) := []

/-- `VarBinding.bind` (loaders.py lines 119-126): claim a variable for a
position. Fails with `MissingRequiredVar` when the key is absent from
the raw input, with `AmbiguousVarError` (carrying the first claimant's
qualified name and the new claimant's) when the key is already claimed;
otherwise records the claim. -/
def VarBinding.bind (env : VarBinding) (v : Value) : Except LoadError VarBinding :=
  if ¬ env.vars.hasKey v.varName then
    .error (.missingRequiredVar v.varName v.qualName)
  else
    match env.bound.lookup v.varName with
    | some firstQual => .error (.ambiguousVar v.varName firstQual v.qualName)
    | none => .ok { env with bound := env.bound ++ [(v.varName, v.qualName)] }

/-- Footprint of a scope (`VarBinding.track_changes`, loaders.py lines
128-135): number of claims after minus number before. -/
def footprint (before after : VarBinding) : Nat :=
  after.bound.length - before.bound.length

/-- ASCII uppercase a string, character by character (model of Python
`str.upper` on the ASCII keys and values the decoder handles). -/
def upperStr (s : String) : String := ⟨s.data.map Char.toUpper⟩

/-- ASCII lowercase a string (model of Python `str.lower`). -/
def lowerStr (s : String) : String := ⟨s.data.map Char.toLower⟩

/-- Strip surrounding whitespace (model of Python `str.strip()`). -/
def trimStr (s : String) : String :=
  ⟨((s.data.dropWhile Char.isWhitespace).reverse.dropWhile Char.isWhitespace).reverse⟩

/-- Split a character list at the first character satisfying `p`:
returns the part before and, when found, the part after. -/
def splitFirst (p : Char → Bool) : List Char → List Char × Option (List Char)
  | [] => ([], none)
  | ch :: rest =>
    if p ch then ([], some rest)
    else
      let (before, after) := splitFirst p rest
      (ch :: before, after)

/-- Read a nonempty all-digit character list as a natural number. -/
def digitsToNat? (cs : List Char) : Option Nat :=
  if cs ≠ [] ∧ cs.all Char.isDigit then
    some (cs.foldl (fun n ch => 10 * n + (ch.toNat - 48)) 0)
  else none

/-- The `__name__` of a Python type, used for the root qualified name.
Only the record case is reachable from the entry point. -/
def Ty.pyName : Ty → String
  | .record n _ => n
  | .int => "int"
  | .float => "float"
  | .str => "str"
  | .bool => "bool"
  | .noneType => "NoneType"
  | .union _ => "Union"
  | .list _ => "list"
  | .fixedTuple _ => "tuple"
  | .anyTuple _ => "tuple"

/-- The kinds of handlers, one per loader class in loaders.py. -/
inductive LoaderKind where
  | custom
  | optional
  | basicInt
  | basicFloat
  | basicStr
  | boolean
  | dataClass
  | unionLoader
  | listLoader
  | fixedTupleLoader
  | anyTupleLoader
deriving DecidableEq

/-- `can_load` of each loader class. `custom` checks the position's
metadata for a custom parser (loaders.py 209-211); the typed loaders
match on the schema kind exactly: `BasicValueLoader.can_load` is an
identity test `value.type is self.type` (line 167-169), `DataClassLoader`
uses `DataClasses.is_dataclass` (229-231), `UnionLoader` checks the union
origin (293-296, also true of optionals — dispatch order decides),
`ListLoader` the list origin (322-325), and the tuple loaders
`Tuples.is_fixed` / `Tuples.is_any_length`. -/
def canLoad (k : LoaderKind) (v : Value) : Bool :=
  match k with
  | .custom =>
    match v.metadata with
    | some m => m.load.isSome
    | none => false
  | .optional => v.type.isOptional
  | .basicInt => match v.type with | .int => true | _ => false
  | .basicFloat => match v.type with | .float => true | _ => false
  | .basicStr => match v.type with | .str => true | _ => false
  | .boolean => match v.type with | .bool => true | _ => false
  | .dataClass => v.type.isDataclass
  | .unionLoader => match v.type with | .union _ => true | _ => false
  | .listLoader => match v.type with | .list _ => true | _ => false
  | .fixedTupleLoader => match v.type with | .fixedTuple _ => true | _ => false
  | .anyTupleLoader => match v.type with | .anyTuple _ => true | _ => false

/-- `DEFAULT_LOADERS` (loaders.py lines 476-488): the canonical ordered
handler list. -/
def defaultLoaders : List LoaderKind :=
  [.custom, .optional, .basicInt, .basicFloat, .basicStr, .boolean,
   .dataClass, .unionLoader, .listLoader, .fixedTupleLoader, .anyTupleLoader]

/-- `Strategy` (loaders.py lines 44-49): configuration plus the ordered
handler list (defaulting to `DEFAULT_LOADERS`). -/
structure Strategy where
  config : Config
  loaders : List LoaderKind := defaultLoaders

/-- The loop of `Strategy.resolve_loader` (loaders.py lines 61-66):
first loader whose `can_load` accepts the value wins. -/
def resolveFrom (v : Value) : List LoaderKind → Except LoadError LoaderKind
  | [] => .error (.unsupportedValueType v.qualName v.type)
  | k :: rest => if canLoad k v then .ok k else resolveFrom v rest

/-- `Strategy.resolve_loader`. -/
def Strategy.resolveLoader (st : Strategy) (v : Value) : Except LoadError LoaderKind :=
  resolveFrom v st.loaders

/-- `Strategy.child_var_name` (loaders.py lines 76-81). Python's
truthiness test `if parent.var_name:` is false for both `None` (the
root with no prefix, modelled as `""`) and the empty string. -/
def Strategy.childVarName (st : Strategy) (parent : Value) (ref : String) : String :=
  let thisName := upperStr ref
  if parent.varName ≠ "" then parent.varName ++ st.config.sep ++ thisName
  else thisName

/-- `Strategy.child_qual_name` (loaders.py lines 83-87). -/
def Strategy.childQualName (_st : Strategy) (parent : Value) (ref : String) : String :=
  if parent.type.isDataclass then parent.qualName ++ "." ++ ref
  else parent.qualName ++ "[" ++ ref ++ "]"

/-- `Strategy.child_value` (loaders.py lines 51-59): derive the child
position; a metadata override name replaces the computed variable key
wholesale. -/
def Strategy.childValue (st : Strategy) (parent : Value) (ref : String) (ty : Ty)
    (md : Option Metadata := none) : Value :=
  let varName := st.childVarName parent ref
  let qualName := st.childQualName parent ref
  let varName :=
    match md with
    | some m => match m.name with | some n => n | none => varName
    | none => varName
  { type := ty, varName := varName, qualName := qualName, metadata := md }

/-- `Strategy.root_value` (loaders.py lines 68-74): the root position.
`var_name = config.prefix` (with `None` modelled as `""`),
`qual_name = data_class.__name__`. -/
def Strategy.rootValue (st : Strategy) (dataClass : Ty) : Value :=
  { type := dataClass, varName := st.config.varPrefix.getD "",
    qualName := dataClass.pyName, metadata := none }

/-- Model of Python `int(raw)` on the inputs the decoder meets: optional
surrounding whitespace, an optional sign, then decimal digits. (Python
additionally allows digit-group underscores; no claim depends on that.) -/
def parseInt? (s : String) : Option Int :=
  match (trimStr s).data with
  | '-' :: rest => (digitsToNat? rest).map (fun n => -(n : Int))
  | '+' :: rest => (digitsToNat? rest).map (fun n => (n : Int))
  | cs => (digitsToNat? cs).map (fun n => (n : Int))

/-- Model of Python `float(raw)` acceptance: optional sign, decimal
digits with at most one point (at least one digit in the mantissa), and
an optional exponent part. The accepted value is carried as its raw
string (`Val.vFloat`); no claim depends on float arithmetic. -/
def isFloatLit (s : String) : Bool :=
  let stripSign := fun (cs : List Char) =>
    match cs with
    | '-' :: rest => rest
    | '+' :: rest => rest
    | cs => cs
  let mantOk := fun (m : List Char) =>
    match splitFirst (fun ch => ch = '.') m with
    | (a, none) => a ≠ [] ∧ a.all Char.isDigit
    | (a, some b) => (a ≠ [] ∨ b ≠ []) ∧ a.all Char.isDigit ∧ b.all Char.isDigit
  let expOk := fun (x : List Char) =>
    let x := stripSign x
    x ≠ [] ∧ x.all Char.isDigit
  let t := stripSign (lowerStr (trimStr s)).data
  match splitFirst (fun ch => ch = 'e') t with
  | (m, none) => mantOk m
  | (m, some x) => mantOk m ∧ expOk x

mutual
/-- The `is_present` family, dispatched like `Strategy.resolve_loader` and
then following the resolved loader's `is_present` method:
- basic/boolean/custom: `value.var_name in env.vars` (loaders.py 180-182,
  221-223) — the `bound` ledger is NOT consulted;
- optional / list / any-length tuple: always true (471-473, 362-364,
  432-434);
- dataclass: every required (default-less) field, under the derived child
  position WITHOUT metadata, is present (280-287);
- union: some alternative is present (307-314);
- fixed tuple: every element is present (385-393).
Fuel `0` is recursion-budget exhaustion (`none`); Python recursion is
unbounded, so claims are stated for arbitrary sufficient fuel. -/
def isPresent (fuel : Nat) (st : Strategy) (env : VarBinding) (v : Value) :
    Option (Except LoadError Bool) :=
  match fuel with
  | 0 => none
  | n + 1 =>
    match st.resolveLoader v with
    | .error e => some (.error e)
    | .ok k =>
      match k with
      | .custom => some (.ok (env.vars.hasKey v.varName))
      | .optional => some (.ok true)
      | .basicInt | .basicFloat | .basicStr | .boolean =>
        some (.ok (env.vars.hasKey v.varName))
      | .dataClass =>
        match v.type with
        | .record _ fields =>
          requiredPresent n st env v (fields.filter (fun f => ¬ f.hasDefault))
        | _ => some (.ok true) -- unreachable: dispatch guarantees a record
      | .unionLoader =>
        match v.type with
        | .union alts => anyAltPresent n st env v alts
        | _ => some (.ok false) -- unreachable: dispatch guarantees a union
      | .listLoader => some (.ok true)
      | .fixedTupleLoader =>
        match v.type with
        | .fixedTuple elems => allElemsPresent n st env v 0 elems
        | _ => some (.ok true) -- unreachable: dispatch guarantees a tuple
      | .anyTupleLoader => some (.ok true)

/-- Loop of `DataClassLoader.is_present` (loaders.py 280-287) over the
required fields: the child position is derived from the field name and
type only — no metadata is applied. -/
def requiredPresent (fuel : Nat) (st : Strategy) (env : VarBinding) (parent : Value)
    (fields : List Field) : Option (Except LoadError Bool) :=
  match fuel with
  | 0 => none
  | n + 1 =>
    match fields with
    | [] => some (.ok true)
    | f :: rest =>
      let fv := st.childValue parent f.name f.ty none
      match isPresent n st env fv with
      | none => none
      | some (.error e) => some (.error e)
      | some (.ok false) => some (.ok false)
      | some (.ok true) => requiredPresent n st env parent rest

/-- Loop of `UnionLoader.is_present` (loaders.py 307-314): the casted
alternative keeps the position's key, qualified name and metadata
(`dataclasses.replace(value, type=actual_type)`). -/
def anyAltPresent (fuel : Nat) (st : Strategy) (env : VarBinding) (v : Value)
    (alts : List Ty) : Option (Except LoadError Bool) :=
  match fuel with
  | 0 => none
  | n + 1 =>
    match alts with
    | [] => some (.ok false)
    | t :: rest =>
      let casted := { v with type := t }
      match isPresent n st env casted with
      | none => none
      | some (.error e) => some (.error e)
      | some (.ok true) => some (.ok true)
      | some (.ok false) => anyAltPresent n st env v rest

/-- Loop of `FixedLengthTupleLoader.is_present` (loaders.py 385-393). -/
def allElemsPresent (fuel : Nat) (st : Strategy) (env : VarBinding) (v : Value)
    (index : Nat) (elems : List Ty) : Option (Except LoadError Bool) :=
  match fuel with
  | 0 => none
  | n + 1 =>
    match elems with
    | [] => some (.ok true)
    | t :: rest =>
      let item := st.childValue v (toString index) t none
      match isPresent n st env item with
      | none => none
      | some (.error e) => some (.error e)
      | some (.ok false) => some (.ok false)
      | some (.ok true) => allElemsPresent n st env v (index + 1) rest
end

/-- How Python's loop condition `length and current_index < length`
(loaders.py line 338 / 416) evaluates: `None` and `0` are falsy, any
other integer is truthy. -/
def lengthCond (len? : Option Int) (i : Nat) : Bool :=
  match len? with
  | some l => l ≠ 0 ∧ (i : Int) < l
  | none => false

mutual
/-- `Strategy.load` (loaders.py lines 89-92) fused with each loader's
`load` method: resolve the first matching handler, then run its
type-specific logic. Fuel `0` is recursion-budget exhaustion (`none`).
Errors abort and no state is returned (Python unwinds to the entry
point). -/
def load (fuel : Nat) (st : Strategy) (env : VarBinding) (v : Value) :
    Option (Except LoadError (Val × VarBinding)) :=
  match fuel with
  | 0 => none
  | n + 1 =>
    match st.resolveLoader v with
    | .error e => some (.error e)
    | .ok k =>
      match k with
      | .custom =>
        -- CustomLoader.load (213-219): bind, then apply the metadata
        -- parser; a ValueError becomes InvalidVariableFormat.
        match env.bind v with
        | .error e => some (.error e)
        | .ok env' =>
          let raw := env.vars.get v.varName
          match v.metadata with
          | some m =>
            match m.load with
            | some f =>
              match f raw with
              | .ok x => some (.ok (x, env'))
              | .error cause =>
                some (.error (.invalidVariableFormat v.varName v.qualName cause))
            | none => some (.error (.unsupportedValueType v.qualName v.type))
              -- unreachable: can_load guarantees a parser
          | none => some (.error (.unsupportedValueType v.qualName v.type))
            -- unreachable: can_load guarantees metadata
      | .basicInt =>
        -- BasicValueLoader(int).load (171-178)
        match env.bind v with
        | .error e => some (.error e)
        | .ok env' =>
          let raw := env.vars.get v.varName
          match parseInt? raw with
          | some m => some (.ok (.vInt m, env'))
          | none =>
            some (.error (.invalidVariableFormat v.varName v.qualName
              ("invalid literal for int() with base 10: '" ++ raw ++ "'")))
      | .basicFloat =>
        -- BasicValueLoader(float).load (171-178)
        match env.bind v with
        | .error e => some (.error e)
        | .ok env' =>
          let raw := env.vars.get v.varName
          if isFloatLit raw then some (.ok (.vFloat raw, env'))
          else
            some (.error (.invalidVariableFormat v.varName v.qualName
              ("could not convert string to float: '" ++ raw ++ "'")))
      | .basicStr =>
        -- BasicValueLoader(str).load (171-178): str(raw) is the identity
        match env.bind v with
        | .error e => some (.error e)
        | .ok env' => some (.ok (.vStr (env.vars.get v.varName), env'))
      | .boolean =>
        -- BooleanLoader.load (191-200)
        match env.bind v with
        | .error e => some (.error e)
        | .ok env' =>
          let ru := upperStr (env.vars.get v.varName)
          let normalized := trimStr ru
          if normalized = "TRUE" ∨ normalized = "1" ∨ normalized = "YES" then
            some (.ok (.vBool true, env'))
          else if normalized = "FALSE" ∨ normalized = "0" ∨ normalized = "NO" then
            some (.ok (.vBool false, env'))
          else
            some (.error (.invalidVariableFormat v.varName v.qualName
              ("invalid boolean format: '" ++ ru ++ "'")))
      | .dataClass =>
        -- DataClassLoader.load (233-264)
        match v.type with
        | .record rname fields =>
          match loadFields n st env v fields [] with
          | none => none
          | some (.error e) => some (.error e)
          | some (.ok (args, env')) => some (.ok (.vRecord rname args, env'))
        | _ => some (.error (.unsupportedValueType v.qualName v.type))
          -- unreachable: dispatch guarantees a record
      | .unionLoader =>
        -- UnionLoader.load (298-305)
        match v.type with
        | .union alts => unionGo n st env v alts
        | _ => some (.error (.unsupportedValueType v.qualName v.type))
          -- unreachable: dispatch guarantees a union
      | .optional =>
        -- OptionalLoader.load (446-469)
        let isNoneValue := st.childValue v "IS_NONE__" .str none
        match st.resolveLoader isNoneValue with
        | .error e => some (.error e)
        | .ok _ =>
          match isPresent n st env isNoneValue with
          | none => none
          | some (.error e) => some (.error e)
          | some (.ok true) =>
            -- explicit-null sentinel present: claim it (value ignored),
            -- return None
            match load n st env isNoneValue with
            | none => none
            | some (.error e) => some (.error e)
            | some (.ok (_, env')) => some (.ok (.vNone, env'))
          | some (.ok false) =>
            let actual : Value := { v with type := v.type.removeOptional }
            match st.resolveLoader actual with
            | .error e => some (.error e)
            | .ok _ =>
              match isPresent n st env actual with
              | none => none
              | some (.error e) => some (.error e)
              | some (.ok true) =>
                match load n st env actual with
                | none => none
                | some (.error e) => some (.error e)
                | some (.ok (x, env')) =>
                  -- footprint 0 means the inner value was a pure
                  -- type-default: Optional's own default None wins
                  if footprint env env' > 0 then some (.ok (x, env'))
                  else some (.ok (.vNone, env'))
              | some (.ok false) => some (.ok (.vNone, env))
      | .listLoader =>
        -- ListLoader.load (327-352)
        match v.type with
        | .list itemTy =>
          let lengthValue := st.childValue v "LEN" (.union [.int, .noneType]) none
          match load n st env lengthValue with
          | none => none
          | some (.error e) => some (.error e)
          | some (.ok (lenVal, env1)) =>
            let len? : Option Int := match lenVal with | .vInt m => some m | _ => none
            let item0 := st.childValue v (toString 0) itemTy none
            match st.resolveLoader item0 with
            | .error e => some (.error e)
            | .ok _ =>
              match seqLoop n st env1 v itemTy len? 0 [] with
              | none => none
              | some (.error e) => some (.error e)
              | some (.ok (items, env2)) => some (.ok (.vList items, env2))
        | _ => some (.error (.unsupportedValueType v.qualName v.type))
          -- unreachable: dispatch guarantees a list
      | .anyTupleLoader =>
        -- AnyLengthTupleLoader.load (405-430): same algorithm, the
        -- collected items are returned as a tuple
        match v.type with
        | .anyTuple itemTy =>
          let lengthValue := st.childValue v "LEN" (.union [.int, .noneType]) none
          match load n st env lengthValue with
          | none => none
          | some (.error e) => some (.error e)
          | some (.ok (lenVal, env1)) =>
            let len? : Option Int := match lenVal with | .vInt m => some m | _ => none
            let item0 := st.childValue v (toString 0) itemTy none
            match st.resolveLoader item0 with
            | .error e => some (.error e)
            | .ok _ =>
              match tupleLoop n st env1 v itemTy len? 0 [] with
              | none => none
              | some (.error e) => some (.error e)
              | some (.ok (items, env2)) => some (.ok (.vTuple items, env2))
        | _ => some (.error (.unsupportedValueType v.qualName v.type))
          -- unreachable: dispatch guarantees a tuple
      | .fixedTupleLoader =>
        -- FixedLengthTupleLoader.load (374-383)
        match v.type with
        | .fixedTuple elems =>
          match fixedLoop n st env v 0 elems [] with
          | none => none
          | some (.error e) => some (.error e)
          | some (.ok (items, env')) => some (.ok (.vTuple items, env'))
        | _ => some (.error (.unsupportedValueType v.qualName v.type))
          -- unreachable: dispatch guarantees a tuple

/-- Per-field loop of `DataClassLoader.load` (loaders.py 237-263):
resolve metadata, derive the child position, check presence; skip a
defaulted absent field (`data_class(**args)` then fills the declared
default); otherwise decode inside a footprint scope and let the field
default override a zero-footprint result. -/
def loadFields (fuel : Nat) (st : Strategy) (env : VarBinding) (parent : Value)
    (fields : List Field) (acc : List (String × Val)) :
    Option (Except LoadError (List (String × Val) × VarBinding)) :=
  match fuel with
  | 0 => none
  | n + 1 =>
    match fields with
    | [] => some (.ok (acc, env))
    | f :: rest =>
      let md := resolveMetadata f.meta
      let fv := st.childValue parent f.name f.ty md
      match st.resolveLoader fv with
      | .error e => some (.error e)
      | .ok _ =>
        match isPresent n st env fv with
        | none => none
        | some (.error e) => some (.error e)
        | some (.ok present) =>
          if f.hasDefault ∧ ¬ present then
            loadFields n st env parent rest (acc ++ [(f.name, f.default.getD .vNone)])
          else
            match load n st env fv with
            | none => none
            | some (.error e) => some (.error e)
            | some (.ok (x, env')) =>
              let chosen := if footprint env env' = 0 ∧ f.hasDefault
                then f.default.getD .vNone else x
              loadFields n st env' parent rest (acc ++ [(f.name, chosen)])

/-- Loop of `UnionLoader.load` (loaders.py 300-305): first alternative
whose `is_present` is true is decoded and returned (errors of the
committed alternative propagate unchanged); none present raises
`UnionLoadingError` with the union position's qualified name and type. -/
def unionGo (fuel : Nat) (st : Strategy) (env : VarBinding) (v : Value)
    (alts : List Ty) : Option (Except LoadError (Val × VarBinding)) :=
  match fuel with
  | 0 => none
  | n + 1 =>
    match alts with
    | [] => some (.error (.unionLoadingError v.qualName v.type))
    | t :: rest =>
      let casted := { v with type := t }
      match st.resolveLoader casted with
      | .error e => some (.error e)
      | .ok _ =>
        match isPresent n st env casted with
        | none => none
        | some (.error e) => some (.error e)
        | some (.ok true) => load n st env casted
        | some (.ok false) => unionGo n st env v rest

/-- While-loop of `ListLoader.load` (loaders.py 338-351): continue while
the element is present or the declared length is truthy and not yet
reached; decode each element in a footprint scope; a zero-footprint
element stops the loop without being collected. -/
def seqLoop (fuel : Nat) (st : Strategy) (env : VarBinding) (parent : Value)
    (itemTy : Ty) (len? : Option Int) (i : Nat) (acc : List Val) :
    Option (Except LoadError (List Val × VarBinding)) :=
  match fuel with
  | 0 => none
  | n + 1 =>
    let cur := st.childValue parent (toString i) itemTy none
    match isPresent n st env cur with
    | none => none
    | some (.error e) => some (.error e)
    | some (.ok present) =>
      if present ∨ lengthCond len? i then
        match load n st env cur with
        | none => none
        | some (.error e) => some (.error e)
        | some (.ok (x, env')) =>
          if footprint env env' = 0 then some (.ok (acc, env'))
          else seqLoop n st env' parent itemTy len? (i + 1) (acc ++ [x])
      else some (.ok (acc, env))

/-- While-loop of `AnyLengthTupleLoader.load` (loaders.py 416-429):
verbatim duplicate of the list loop in the source. -/
def tupleLoop (fuel : Nat) (st : Strategy) (env : VarBinding) (parent : Value)
    (itemTy : Ty) (len? : Option Int) (i : Nat) (acc : List Val) :
    Option (Except LoadError (List Val × VarBinding)) :=
  match fuel with
  | 0 => none
  | n + 1 =>
    let cur := st.childValue parent (toString i) itemTy none
    match isPresent n st env cur with
    | none => none
    | some (.error e) => some (.error e)
    | some (.ok present) =>
      if present ∨ lengthCond len? i then
        match load n st env cur with
        | none => none
        | some (.error e) => some (.error e)
        | some (.ok (x, env')) =>
          if footprint env env' = 0 then some (.ok (acc, env'))
          else tupleLoop n st env' parent itemTy len? (i + 1) (acc ++ [x])
      else some (.ok (acc, env))

/-- Element loop of `FixedLengthTupleLoader.load` (loaders.py 376-383):
decode every element in order, unconditionally (no presence check, no
footprint scope). -/
def fixedLoop (fuel : Nat) (st : Strategy) (env : VarBinding) (parent : Value)
    (i : Nat) (elems : List Ty) (acc : List Val) :
    Option (Except LoadError (List Val × VarBinding)) :=
  match fuel with
  | 0 => none
  | n + 1 =>
    match elems with
    | [] => some (.ok (acc, env))
    | t :: rest =>
      let item := st.childValue parent (toString i) t none
      match load n st env item with
      | none => none
      | some (.error e) => some (.error e)
      | some (.ok (x, env')) => fixedLoop n st env' parent (i + 1) rest (acc ++ [x])
end

/-- Modelled from the spec: the entry point `from_env`
(`fromenv/__init__.py` of the current generation is absent from the
sources; only a stale copy wired to the superseded `value.py` module is
present). Per spec section 6: `decode(schema, input_map, config)` checks
the schema is a record, builds the default `Strategy` (whose handler
list defaults to `DEFAULT_LOADERS` per loaders.py lines 44-49), forms
the root position and hands off to the resolved loader. -/
def fromEnv (fuel : Nat) (dataClass : Ty) (env : EnvVars)
    (config : Config := {}) : Option (Except LoadError Val) :=
  if ¬ dataClass.isDataclass then
    some (.error (.notADataClass dataClass.pyName))
  else
    let st : Strategy := { config := config }
    let root := st.rootValue dataClass
    match load fuel st { vars := env, bound := [] } root with
    | none => none
    | some (.error e) => some (.error e)
    | some (.ok (x, _)) => some (.ok x)

/-- The strategy the entry point builds when no handler override is
given: default configuration, `DEFAULT_LOADERS`. -/
def defaultStrategy : Strategy := { config := {} }

/-- `str | None` — the optional-string schema used by several scenarios. -/
def optStrTy : Ty := .union [.str, .noneType]

/-- Scenario schema (spec section 8, scenario 2): `Nested = {value: str}`. -/
def nestedValueTy : Ty := .record "Nested" [.mk "value" .str none none]

/-- Scenario schema (spec section 8, scenario 2):
`TestData = {nested: Nested, nested_value: str | None}`. -/
def ambiguityDataTy : Ty :=
  .record "TestData"
    [.mk "nested" nestedValueTy none none,
     .mk "nested_value" optStrTy none none]

/-- Scenario schema (spec section 8, scenario 6): `Nested = {attr: str | None}`. -/
def nestedAttrTy : Ty := .record "Nested" [.mk "attr" optStrTy none none]

/-- Scenario schema (spec section 8, scenario 6):
`TestData = {nested: Nested | None}`. -/
def optionalNestedDataTy : Ty :=
  .record "TestData" [.mk "nested" (.union [nestedAttrTy, .noneType]) none none]

/-- Scenario schema (spec section 8, scenario 3):
`TestData = {list: list[int] | None}`. -/
def listDataTy : Ty :=
  .record "TestData" [.mk "list" (.union [.list .int, .noneType]) none none]

/-- Scenario schema for the any-length tuple claim:
`TestData = {basic_tuple: tuple[int, ...]}` (tests/test_fromenv.py,
`test_var_tuple`). -/
def anyTupleDataTy : Ty :=
  .record "TestData" [.mk "basic_tuple" (.anyTuple .int) none none]

/-- Schema with a required field carrying a `fromenv` override key:
`R = {f: str}` with metadata `"OVR"`. -/
def overrideRecTy : Ty := .record "R" [.mk "f" .str none (some (.asString "OVR"))]

/-- `Nested = {optional: str | None}` for the field-default scenarios
(tests/test_fromenv.py, `test_optional_field_with_default_value`). -/
def defaultsNestedTy : Ty := .record "Nested" [.mk "optional" optStrTy none none]

/-- `TestData = {nested: Nested | None = Nested("default"), optional:
str | None = "default"}`: both fields have declared defaults while their
types produce zero-footprint type-defaults. -/
def defaultsDataTy : Ty :=
  .record "TestData"
    [.mk "nested" (.union [defaultsNestedTy, .noneType])
       (some (.vRecord "Nested" [("optional", .vStr "default")])) none,
     .mk "optional" optStrTy (some (.vStr "default")) none]

/-- `TestData = {or_type_field: str | int, union_field: Union[int, str]}`
(tests/test_fromenv.py, `test_union`). -/
def unionDataTy : Ty :=
  .record "TestData"
    [.mk "or_type_field" (.union [.str, .int]) none none,
     .mk "union_field" (.union [.int, .str]) none none]

/-- `T = {u: int | str}` for the no-alternative-present error scenario. -/
def unionMissingTy : Ty :=
  .record "T" [.mk "u" (.union [.int, .str]) none none]

/-- Wrap the ok-payload of a list load as the tuple loader would:
`vList xs` becomes `vTuple xs`. -/
def retuple (r : Option (Except LoadError (Val × VarBinding))) :
    Option (Except LoadError (Val × VarBinding)) :=
  r.map (Except.map (fun p =>
    match p.1 with
    | .vList xs => (.vTuple xs, p.2)
    | _ => p))

/-- Erase the `fromenv` metadata entry of a field (used to state that
`DataClassLoader.is_present` never consults it). -/
def stripFieldMeta (f : Field) : Field := .mk f.name f.ty f.default none

/-- Ledger evolution invariant. -/
def Evolves (env env' : VarBinding) : Prop :=
  env'.vars = env.vars ∧ env.bound.IsPrefix env'.bound ∧
  ((env.bound.map Prod.fst).Nodup → (env'.bound.map Prod.fst).Nodup)

theorem Evolves.refl (env : VarBinding) : Evolves env env :=
  ⟨rfl, List.prefix_rfl, id⟩

theorem Evolves.trans {a b c : VarBinding} (h1 : Evolves a b) (h2 : Evolves b c) : Evolves a c :=
  ⟨h2.1.trans h1.1, h1.2.1.trans h2.2.1, fun h => h2.2.2 (h1.2.2 h)⟩

theorem lookup_none_not_mem {l : List (String × String)} {k : String}
    (h : l.lookup k = none) : k ∉ l.map Prod.fst := by
  induction l with
  | nil => simp
  | cons p rest ih =>
    simp only [List.lookup] at h
    by_cases hk : k = p.1
    · simp [hk, beq_iff_eq] at h
    · have : (k == p.1) = false := by simp [hk]
      rw [this] at h
      simp only [List.map_cons, List.mem_cons]
      push_neg
      exact ⟨hk, ih h⟩

theorem bind_ok {env : VarBinding} {v : Value} {env' : VarBinding}
    (h : env.bind v = .ok env') :
    env'.vars = env.vars ∧ env'.bound = env.bound ++ [(v.varName, v.qualName)] ∧
      env.bound.lookup v.varName = none := by
  unfold VarBinding.bind at h
  split at h
  · exact absurd h (by simp)
  · split at h
    · exact absurd h (by simp)
    · rename_i hlook
      injection h with h
      subst h
      exact ⟨rfl, rfl, hlook⟩

theorem bind_evolves {env : VarBinding} {v : Value} {env' : VarBinding}
    (h : env.bind v = .ok env') : Evolves env env' := by
  obtain ⟨hv, hb, hl⟩ := bind_ok h
  refine ⟨hv, ?_, ?_⟩
  · rw [hb]; exact List.prefix_append _ _
  · intro hn
    rw [hb]
    simp only [List.map_append, List.map_cons, List.map_nil]
    rw [List.nodup_append]
    refine ⟨hn, List.nodup_singleton _, ?_⟩
    intro a ha hb'
    simp only [List.mem_singleton] at hb'
    subst hb'
    exact lookup_none_not_mem hl ha


set_option maxHeartbeats 2000000 in
/-- Every successful (sub)decode only extends the binding ledger (claims
are never removed) and preserves distinctness of the claimed keys, and
never touches the raw input. Proven simultaneously for all six mutually
recursive interpreter functions by induction on fuel. -/
theorem evolve_all : ∀ fuel : Nat,
    (∀ st env v r, load fuel st env v = some (.ok r) → Evolves env r.2) ∧
    (∀ st env p fields acc r,
      loadFields fuel st env p fields acc = some (.ok r) → Evolves env r.2) ∧
    (∀ st env v alts r, unionGo fuel st env v alts = some (.ok r) → Evolves env r.2) ∧
    (∀ st env p t l i acc r,
      seqLoop fuel st env p t l i acc = some (.ok r) → Evolves env r.2) ∧
    (∀ st env p t l i acc r,
      tupleLoop fuel st env p t l i acc = some (.ok r) → Evolves env r.2) ∧
    (∀ st env p i elems acc r,
      fixedLoop fuel st env p i elems acc = some (.ok r) → Evolves env r.2) := by
  intro fuel
  induction fuel with
  | zero =>
    refine ⟨?_, ?_, ?_, ?_, ?_, ?_⟩ <;> intros <;> rename_i h <;>
      exact absurd h (by simp [load, loadFields, unionGo, seqLoop, tupleLoop, fixedLoop])
  | succ n ih =>
    obtain ⟨ihL, ihF, ihU, ihS, ihT, ihX⟩ := ih
    refine ⟨?_, ?_, ?_, ?_, ?_, ?_⟩
    · intro st env v r h
      simp only [load] at h
      repeat' split at h
      all_goals
        first
          | exact Option.noConfusion h
          | (injection h with h; exact Except.noConfusion h)
          | (injection h with h; injection h with h; subst h
             solve_by_elim [Evolves.trans, Evolves.refl, bind_evolves,
               ihL, ihF, ihU, ihS, ihT, ihX])
          | (injection h with h; injection h with h; subst h
             exact Evolves.trans (ihL _ _ _ _ (by assumption))
               (ihS _ _ _ _ _ _ _ _ (by assumption)))
          | (injection h with h; injection h with h; subst h
             exact Evolves.trans (ihL _ _ _ _ (by assumption))
               (ihT _ _ _ _ _ _ _ _ (by assumption)))
          | solve_by_elim [Evolves.trans, Evolves.refl, bind_evolves,
              ihL, ihF, ihU, ihS, ihT, ihX]
    · intro st env p fields acc r h
      simp only [loadFields] at h
      repeat' split at h
      all_goals
        first
          | exact Option.noConfusion h
          | (injection h with h; exact Except.noConfusion h)
          | (injection h with h; injection h with h; subst h
             solve_by_elim [Evolves.trans, Evolves.refl, bind_evolves,
               ihL, ihF, ihU, ihS, ihT, ihX])
          | solve_by_elim [Evolves.trans, Evolves.refl, bind_evolves,
              ihL, ihF, ihU, ihS, ihT, ihX]
    · intro st env v alts r h
      simp only [unionGo] at h
      repeat' split at h
      all_goals
        first
          | exact Option.noConfusion h
          | (injection h with h; exact Except.noConfusion h)
          | (injection h with h; injection h with h; subst h
             solve_by_elim [Evolves.trans, Evolves.refl, bind_evolves,
               ihL, ihF, ihU, ihS, ihT, ihX])
          | solve_by_elim [Evolves.trans, Evolves.refl, bind_evolves,
              ihL, ihF, ihU, ihS, ihT, ihX]
    · intro st env p t l i acc r h
      simp only [seqLoop] at h
      repeat' split at h
      all_goals
        first
          | exact Option.noConfusion h
          | (injection h with h; exact Except.noConfusion h)
          | (injection h with h; injection h with h; subst h
             solve_by_elim [Evolves.trans, Evolves.refl, bind_evolves,
               ihL, ihF, ihU, ihS, ihT, ihX])
          | solve_by_elim [Evolves.trans, Evolves.refl, bind_evolves,
              ihL, ihF, ihU, ihS, ihT, ihX]
    · intro st env p t l i acc r h
      simp only [tupleLoop] at h
      repeat' split at h
      all_goals
        first
          | exact Option.noConfusion h
          | (injection h with h; exact Except.noConfusion h)
          | (injection h with h; injection h with h; subst h
             solve_by_elim [Evolves.trans, Evolves.refl, bind_evolves,
               ihL, ihF, ihU, ihS, ihT, ihX])
          | solve_by_elim [Evolves.trans, Evolves.refl, bind_evolves,
              ihL, ihF, ihU, ihS, ihT, ihX]
    · intro st env p i elems acc r h
      simp only [fixedLoop] at h
      repeat' split at h
      all_goals
        first
          | exact Option.noConfusion h
          | (injection h with h; exact Except.noConfusion h)
          | (injection h with h; injection h with h; subst h
             solve_by_elim [Evolves.trans, Evolves.refl, bind_evolves,
               ihL, ihF, ihU, ihS, ihT, ihX])
          | solve_by_elim [Evolves.trans, Evolves.refl, bind_evolves,
              ihL, ihF, ihU, ihS, ihT, ihX]

/-- Ledger-evolution consequence for single decodes (projection of
`evolve_all`). -/
theorem load_evolves (fuel : Nat) (st : Strategy) (env : VarBinding) (v : Value)
    (r : Val × VarBinding) (h : load fuel st env v = some (.ok r)) :
    Evolves env r.2 :=
  (evolve_all fuel).1 st env v r h

/-- C1: For every decode call, each input key appears as a claim in the
binding ledger at most once: the first successful bind appends the
claiming position's qualified name (and removes nothing), a second bind
attempt for the same key raises `AmbiguousVarError` carrying the key,
the first claimant's qualified name and the second claimant's qualified
name, any successful decode only extends the ledger and preserves
distinctness of claimed keys, and decoding
`{nested: {value: str}, nested_value: str | None}` under input
`{NESTED_VALUE: "x"}` raises Ambiguous on key `NESTED_VALUE` between
`TestData.nested.value` and `TestData.nested_value`. -/
theorem claim_C1 :
    (∀ (env : VarBinding) (v : Value) (env' : VarBinding),
       env.bind v = .ok env' →
         env'.bound = env.bound ++ [(v.varName, v.qualName)]) ∧
    (∀ (env : VarBinding) (v : Value) (firstQual : String),
       env.vars.hasKey v.varName = true →
       env.bound.lookup v.varName = some firstQual →
         env.bind v = .error (.ambiguousVar v.varName firstQual v.qualName)) ∧
    (∀ (fuel : Nat) (st : Strategy) (env : VarBinding) (v : Value)
       (r : Val × VarBinding),
       load fuel st env v = some (.ok r) →
         env.bound.IsPrefix r.2.bound ∧
         ((env.bound.map Prod.fst).Nodup → (r.2.bound.map Prod.fst).Nodup)) ∧
    fromEnv 20 ambiguityDataTy [("NESTED_VALUE", "x")] =
      some (.error (.ambiguousVar "NESTED_VALUE" "TestData.nested.value"
        "TestData.nested_value")) := by
  refine ⟨?_, ?_, ?_, ?_⟩
  · intro env v env' h
    exact (bind_ok h).2.1
  · intro env v firstQual hk hb
    simp [VarBinding.bind, hk, hb]
  · intro fuel st env v r h
    have := load_evolves fuel st env v r h
    exact ⟨this.2.1, this.2.2⟩
  · rfl

/-- Witness for C1: the hypothesized conjuncts applied at concrete
inputs — a second claim of key `K` reports Ambiguous between the two
claimants, and a concrete scalar decode extends the empty ledger to a
duplicate-free one. -/
theorem claim_C1_witness :
    (({ vars := [("K", "v")], bound := [("K", "Q1")] } : VarBinding).bind
       { type := .str, varName := "K", qualName := "Q2", metadata := none } =
       .error (.ambiguousVar "K" "Q1" "Q2")) ∧
    (([] : List (String × String)).IsPrefix [("K", "Q")] ∧
       ([("K", "Q")].map Prod.fst).Nodup) := by
  have h2 := claim_C1.2.2.1 5 defaultStrategy { vars := [("K", "v")], bound := [] }
    { type := .str, varName := "K", qualName := "Q", metadata := none }
    (.vStr "v", { vars := [("K", "v")], bound := [("K", "Q")] }) rfl
  exact ⟨claim_C1.2.1 _ _ _ rfl rfl, h2.1, h2.2 (by simp)⟩

/-- C5 (counterexample): for a scalar (string) position whose key `K` is
in the raw input but already claimed in the ledger, `is_present` still
returns true — contradicting "true iff the key is in the raw input and
that key has not yet been claimed". -/
theorem claim_C5_counterexample :
    isPresent 1 defaultStrategy { vars := [("K", "v")], bound := [("K", "Q")] }
      { type := .str, varName := "K", qualName := "R.f", metadata := none } =
      some (.ok true) ∧
    ({ vars := [("K", "v")], bound := [("K", "Q")] } : VarBinding).bound.lookup "K" =
      some "Q" :=
  ⟨rfl, rfl⟩

/-- C5 (amended): for every scalar position (integer, floating or string
type), `is_present` returns true iff the position's variable key is in
the raw input mapping; the binding ledger is not consulted
(`BasicValueLoader.is_present`, loaders.py lines 180-182). -/
theorem claim_C5 :
    ∀ (n : Nat) (st : Strategy) (env : VarBinding) (v : Value),
      (st.resolveLoader v = .ok .basicInt ∨ st.resolveLoader v = .ok .basicFloat ∨
        st.resolveLoader v = .ok .basicStr) →
      isPresent (n + 1) st env v = some (.ok (env.vars.hasKey v.varName)) := by
  intro n st env v h
  rcases h with h | h | h <;> simp [isPresent, h]

/-- Witness for C5: the string position with key `K` present in the raw
input reports present. -/
theorem claim_C5_witness :
    isPresent 1 defaultStrategy { vars := [("K", "v")], bound := [("K", "Q")] }
      { type := .str, varName := "K", qualName := "R.f", metadata := none } =
      some (.ok (EnvVars.hasKey [("K", "v")] "K")) :=
  claim_C5 0 defaultStrategy _ _ (Or.inr (Or.inr rfl))

/-- The dispatch loop is the first-match search: `resolve_loader` equals
`find?` over the handler list. -/
theorem resolveFrom_eq_find (v : Value) (loaders : List LoaderKind) :
    resolveFrom v loaders =
      match loaders.find? (fun k => canLoad k v) with
      | some k => .ok k
      | none => .error (.unsupportedValueType v.qualName v.type) := by
  induction loaders with
  | nil => rfl
  | cons k rest ih =>
    by_cases hk : canLoad k v
    · simp [resolveFrom, hk, List.find?]
    · simp only [Bool.not_eq_true] at hk
      simp [resolveFrom, hk, List.find?, ih]

/-- C7: the entry point's default handler list is the canonical ordered
list Custom, Optional, Integer scalar, Float scalar, String scalar,
Boolean, Record, Union, Sequence, Fixed-Tuple, Any-Length-Tuple; for any
schema node the handler chosen is deterministically the first in the
configured list whose `can_load` accepts it, and when no handler matches
`UnsupportedValueType` is raised. -/
theorem claim_C7 :
    (∀ cfg : Config, ({ config := cfg } : Strategy).loaders =
      [.custom, .optional, .basicInt, .basicFloat, .basicStr, .boolean,
       .dataClass, .unionLoader, .listLoader, .fixedTupleLoader, .anyTupleLoader]) ∧
    (∀ (v : Value) (loaders : List LoaderKind),
      resolveFrom v loaders =
        match loaders.find? (fun k => canLoad k v) with
        | some k => .ok k
        | none => .error (.unsupportedValueType v.qualName v.type)) ∧
    (∀ (st : Strategy) (v : Value),
      (∀ k ∈ st.loaders, canLoad k v = false) →
        st.resolveLoader v = .error (.unsupportedValueType v.qualName v.type)) := by
  refine ⟨fun _ => rfl, resolveFrom_eq_find, ?_⟩
  intro st v hnone
  have hfind : st.loaders.find? (fun k => canLoad k v) = none :=
    List.find?_eq_none.mpr (fun k hk => by simp [hnone k hk])
  rw [Strategy.resolveLoader, resolveFrom_eq_find, hfind]

/-- Witness for C7: no handler accepts a bare `NoneType` position, so
dispatch raises `UnsupportedValueType` for it. -/
theorem claim_C7_witness :
    defaultStrategy.resolveLoader
      { type := .noneType, varName := "K", qualName := "Q", metadata := none } =
      .error (.unsupportedValueType "Q" .noneType) :=
  claim_C7.2.2 defaultStrategy _ (by decide)

/-- C6: union alternatives are tried in declared order; the first
alternative whose `is_present` is true is decoded and its result
returned unchanged (so errors of the committed alternative propagate);
a non-present alternative is skipped; when no alternative is present
`UnionLoadingError` carries the union position's qualified name and
type. Scenario: `{or_type_field: str | int, union_field: Union[int,
str]}` under `{OR_TYPE_FIELD: "10", UNION_FIELD: "10"}` picks the first
declared alternative each time, and an empty input raises
UnionLoadingError. -/
theorem claim_C6 :
    (∀ (n : Nat) (st : Strategy) (env : VarBinding) (v : Value) (alts : List Ty),
       v.type = .union alts → st.resolveLoader v = .ok .unionLoader →
       load (n + 1) st env v = unionGo n st env v alts) ∧
    (∀ (n : Nat) (st : Strategy) (env : VarBinding) (v : Value) (t : Ty)
       (rest : List Ty) (k : LoaderKind),
       st.resolveLoader { v with type := t } = .ok k →
       isPresent n st env { v with type := t } = some (.ok false) →
       unionGo (n + 1) st env v (t :: rest) = unionGo n st env v rest) ∧
    (∀ (n : Nat) (st : Strategy) (env : VarBinding) (v : Value) (t : Ty)
       (rest : List Ty) (k : LoaderKind),
       st.resolveLoader { v with type := t } = .ok k →
       isPresent n st env { v with type := t } = some (.ok true) →
       unionGo (n + 1) st env v (t :: rest) = load n st env { v with type := t }) ∧
    (∀ (n : Nat) (st : Strategy) (env : VarBinding) (v : Value),
       unionGo (n + 1) st env v [] =
         some (.error (.unionLoadingError v.qualName v.type))) ∧
    fromEnv 20 unionDataTy [("OR_TYPE_FIELD", "10"), ("UNION_FIELD", "10")] =
      some (.ok (.vRecord "TestData"
        [("or_type_field", .vStr "10"), ("union_field", .vInt 10)])) ∧
    fromEnv 20 unionMissingTy [] =
      some (.error (.unionLoadingError "T.u" (.union [.int, .str]))) := by
  refine ⟨?_, ?_, ?_, ?_, rfl, rfl⟩
  · intro n st env v alts hty hres
    simp [load, hres, hty]
  · intro n st env v t rest k hres hpres
    simp [unionGo, hres, hpres]
  · intro n st env v t rest k hres hpres
    simp [unionGo, hres, hpres]
  · intro n st env v
    simp [unionGo]

/-- Witness for C6: for the union position `int | str` with key `U`
bound to raw `"10"`, the first alternative (`int`) is present and the
union decode commits to it; with an empty input no alternative is
present and the empty-alternatives loop raises the union error. -/
theorem claim_C6_witness :
    unionGo 4 defaultStrategy { vars := [("U", "10")], bound := [] }
      { type := .union [.int, .str], varName := "U", qualName := "T.u", metadata := none }
      [.int, .str] =
      load 3 defaultStrategy { vars := [("U", "10")], bound := [] }
        { type := .int, varName := "U", qualName := "T.u", metadata := none } ∧
    unionGo 4 defaultStrategy { vars := [], bound := [] }
      { type := .union [.int, .str], varName := "U", qualName := "T.u", metadata := none }
      [.str] =
      unionGo 3 defaultStrategy { vars := [], bound := [] }
        { type := .union [.int, .str], varName := "U", qualName := "T.u", metadata := none }
        [] :=
  ⟨claim_C6.2.2.1 3 defaultStrategy _ _ .int [.str] .basicInt rfl rfl,
   claim_C6.2.1 3 defaultStrategy _ _ .str [] .basicStr rfl rfl⟩

/-- C2: for a record field that has a default, a child decode that
consumes zero new claims is discarded: the field's declared default is
bound under the field name instead (loaders.py 260-261). End to end,
`{nested: Nested | None = Nested("default"), optional: str | None =
"default"}` decodes the empty input to both declared field defaults,
although both field types produce their own zero-input type defaults. -/
theorem claim_C2 :
    (∀ (n : Nat) (st : Strategy) (env : VarBinding) (parent : Value) (f : Field)
       (rest : List Field) (acc : List (String × Val)) (d : Val) (k : LoaderKind)
       (x : Val) (env' : VarBinding),
       f.default = some d →
       st.resolveLoader (st.childValue parent f.name f.ty (resolveMetadata f.meta)) = .ok k →
       isPresent n st env (st.childValue parent f.name f.ty (resolveMetadata f.meta)) =
         some (.ok true) →
       load n st env (st.childValue parent f.name f.ty (resolveMetadata f.meta)) =
         some (.ok (x, env')) →
       footprint env env' = 0 →
       loadFields (n + 1) st env parent (f :: rest) acc =
         loadFields n st env' parent rest (acc ++ [(f.name, d)])) ∧
    fromEnv 25 defaultsDataTy [] =
      some (.ok (.vRecord "TestData"
        [("nested", .vRecord "Nested" [("optional", .vStr "default")]),
         ("optional", .vStr "default")])) := by
  refine ⟨?_, rfl⟩
  intro n st env parent f rest acc d k x env' hdef hres hpres hload hfp
  have hhd : f.hasDefault = true := by simp [Field.hasDefault, hdef]
  simp [loadFields, hres, hpres, hload, hhd, hfp, hdef]

/-- Witness for C2: the optional-string field `optional` with default
`"default"` decodes `None` from empty input at zero footprint; the
record loop discards the `None` and binds the declared default. -/
theorem claim_C2_witness :
    loadFields 6 defaultStrategy { vars := [], bound := [] }
      (defaultStrategy.rootValue defaultsDataTy)
      [.mk "optional" optStrTy (some (.vStr "default")) none] [] =
      loadFields 5 defaultStrategy { vars := [], bound := [] }
        (defaultStrategy.rootValue defaultsDataTy) []
        [("optional", .vStr "default")] :=
  claim_C2.1 5 defaultStrategy _ _ _ [] [] (.vStr "default") .optional .vNone
    { vars := [], bound := [] } rfl rfl rfl rfl rfl

/-- `is_present` never raises `MissingRequiredVar`: the only errors the
presence family can surface are dispatch failures
(`UnsupportedValueType`), since `is_present` never claims a variable. -/
theorem isPresent_error_unsupported : ∀ fuel : Nat,
    (∀ st env v e, isPresent fuel st env v = some (.error e) →
      ∃ q t, e = .unsupportedValueType q t) ∧
    (∀ st env p fields e, requiredPresent fuel st env p fields = some (.error e) →
      ∃ q t, e = .unsupportedValueType q t) ∧
    (∀ st env v alts e, anyAltPresent fuel st env v alts = some (.error e) →
      ∃ q t, e = .unsupportedValueType q t) ∧
    (∀ st env v i elems e, allElemsPresent fuel st env v i elems = some (.error e) →
      ∃ q t, e = .unsupportedValueType q t) := by
  intro fuel
  induction fuel with
  | zero =>
    refine ⟨?_, ?_, ?_, ?_⟩ <;> intros <;> rename_i h <;>
      exact absurd h (by simp [isPresent, requiredPresent, anyAltPresent, allElemsPresent])
  | succ n ih =>
    obtain ⟨ihP, ihR, ihA, ihE⟩ := ih
    have hres : ∀ (st : Strategy) (v : Value) (e : LoadError),
        st.resolveLoader v = .error e → ∃ q t, e = .unsupportedValueType q t := by
      intro st v e h
      rw [Strategy.resolveLoader, resolveFrom_eq_find] at h
      split at h
      · exact absurd h (by simp)
      · injection h with h
        exact ⟨v.qualName, v.type, h.symm⟩
    refine ⟨?_, ?_, ?_, ?_⟩
    · intro st env v e h
      simp only [isPresent] at h
      repeat' split at h
      all_goals
        first
          | exact Option.noConfusion h
          | (injection h with h; injection h with h
             exact hres _ _ _ (by rw [← h]; assumption))
          | (injection h with h; exact Except.noConfusion h)
          | (injection h with h; injection h with h; subst h
             solve_by_elim [hres, ihP, ihR, ihA, ihE])
          | solve_by_elim [hres, ihP, ihR, ihA, ihE]
    · intro st env p fields e h
      simp only [requiredPresent] at h
      repeat' split at h
      all_goals
        first
          | exact Option.noConfusion h
          | (injection h with h; exact Except.noConfusion h)
          | (injection h with h; injection h with h; subst h
             solve_by_elim [hres, ihP, ihR, ihA, ihE])
          | solve_by_elim [hres, ihP, ihR, ihA, ihE]
    · intro st env v alts e h
      simp only [anyAltPresent] at h
      repeat' split at h
      all_goals
        first
          | exact Option.noConfusion h
          | (injection h with h; exact Except.noConfusion h)
          | (injection h with h; injection h with h; subst h
             solve_by_elim [hres, ihP, ihR, ihA, ihE])
          | solve_by_elim [hres, ihP, ihR, ihA, ihE]
    · intro st env v i elems e h
      simp only [allElemsPresent] at h
      repeat' split at h
      all_goals
        first
          | exact Option.noConfusion h
          | (injection h with h; exact Except.noConfusion h)
          | (injection h with h; injection h with h; subst h
             solve_by_elim [hres, ihP, ihR, ihA, ihE])
          | solve_by_elim [hres, ihP, ihR, ihA, ihE]

/-- A basic string decode with its key present in the raw input never
raises `MissingRequiredVar`: the bind either succeeds or reports
Ambiguous. -/
theorem basicStr_no_missing (n : Nat) (st : Strategy) (env : VarBinding) (v : Value)
    (hres : st.resolveLoader v = .ok .basicStr)
    (hk : env.vars.hasKey v.varName = true) :
    ∀ k q, load n st env v ≠ some (.error (.missingRequiredVar k q)) := by
  intro k q h
  match n with
  | 0 => exact Option.noConfusion h
  | m + 1 =>
    simp only [load, hres] at h
    unfold VarBinding.bind at h
    rw [if_neg (by simp [hk])] at h
    split at h <;> rename_i heq <;>
      first
        | (split at heq <;> simp_all)
        | simp_all

/-- C3: the Optional decode first forms the sentinel position with key
`<key><SEP>IS_NONE__` and scalar type string; a present sentinel is
claimed and null returned with its stored value ignored; otherwise a
present inner value is decoded in a footprint scope and returned when
the footprint is positive, while a zero footprint or an absent inner
position yields null. Scenarios: `{nested: Nested | None}` with
`Nested = {attr: str | None}` decodes `{NESTED_IS_NONE__: ""}` to null,
`{NESTED_ATTR: "x"}` to `Nested(attr="x")`, and `{}` to null. -/
theorem claim_C3 :
    (∀ (cfg : Config) (v : Value), v.varName ≠ "" →
      (({ config := cfg } : Strategy).childValue v "IS_NONE__" .str none).varName =
        v.varName ++ cfg.sep ++ "IS_NONE__" ∧
      (({ config := cfg } : Strategy).childValue v "IS_NONE__" .str none).type = .str) ∧
    (∀ (n : Nat) (cfg : Config) (env : VarBinding) (v : Value),
      ({ config := cfg } : Strategy).resolveLoader v = .ok .optional →
      env.vars.hasKey
        (({ config := cfg } : Strategy).childValue v "IS_NONE__" .str none).varName = true →
      env.bound.lookup
        (({ config := cfg } : Strategy).childValue v "IS_NONE__" .str none).varName = none →
      load (n + 2) { config := cfg } env v =
        some (.ok (.vNone, { env with bound := env.bound ++
          [((({ config := cfg } : Strategy).childValue v "IS_NONE__" .str none).varName,
            (({ config := cfg } : Strategy).childValue v "IS_NONE__" .str none).qualName)] }))) ∧
    (∀ (n : Nat) (cfg : Config) (env : VarBinding) (v : Value) (k : LoaderKind)
       (x : Val) (env' : VarBinding),
      ({ config := cfg } : Strategy).resolveLoader v = .ok .optional →
      env.vars.hasKey
        (({ config := cfg } : Strategy).childValue v "IS_NONE__" .str none).varName = false →
      ({ config := cfg } : Strategy).resolveLoader
        { v with type := v.type.removeOptional } = .ok k →
      isPresent (n + 1) { config := cfg } env { v with type := v.type.removeOptional } =
        some (.ok true) →
      load (n + 1) { config := cfg } env { v with type := v.type.removeOptional } =
        some (.ok (x, env')) →
      footprint env env' > 0 →
      load (n + 2) { config := cfg } env v = some (.ok (x, env'))) ∧
    (∀ (n : Nat) (cfg : Config) (env : VarBinding) (v : Value) (k : LoaderKind)
       (x : Val) (env' : VarBinding),
      ({ config := cfg } : Strategy).resolveLoader v = .ok .optional →
      env.vars.hasKey
        (({ config := cfg } : Strategy).childValue v "IS_NONE__" .str none).varName = false →
      ({ config := cfg } : Strategy).resolveLoader
        { v with type := v.type.removeOptional } = .ok k →
      isPresent (n + 1) { config := cfg } env { v with type := v.type.removeOptional } =
        some (.ok true) →
      load (n + 1) { config := cfg } env { v with type := v.type.removeOptional } =
        some (.ok (x, env')) →
      footprint env env' = 0 →
      load (n + 2) { config := cfg } env v = some (.ok (.vNone, env'))) ∧
    (∀ (n : Nat) (cfg : Config) (env : VarBinding) (v : Value) (k : LoaderKind),
      ({ config := cfg } : Strategy).resolveLoader v = .ok .optional →
      env.vars.hasKey
        (({ config := cfg } : Strategy).childValue v "IS_NONE__" .str none).varName = false →
      ({ config := cfg } : Strategy).resolveLoader
        { v with type := v.type.removeOptional } = .ok k →
      isPresent (n + 1) { config := cfg } env { v with type := v.type.removeOptional } =
        some (.ok false) →
      load (n + 2) { config := cfg } env v = some (.ok (.vNone, env))) ∧
    fromEnv 25 optionalNestedDataTy [("NESTED_IS_NONE__", "")] =
      some (.ok (.vRecord "TestData" [("nested", .vNone)])) ∧
    fromEnv 25 optionalNestedDataTy [("NESTED_ATTR", "x")] =
      some (.ok (.vRecord "TestData"
        [("nested", .vRecord "Nested" [("attr", .vStr "x")])])) ∧
    fromEnv 25 optionalNestedDataTy [] =
      some (.ok (.vRecord "TestData" [("nested", .vNone)])) := by
  refine ⟨?_, ?_, ?_, ?_, ?_, rfl, rfl, rfl⟩
  · intro cfg v hne
    refine ⟨?_, rfl⟩
    have hup : upperStr "IS_NONE__" = "IS_NONE__" := rfl
    simp [Strategy.childValue, Strategy.childVarName, hne, hup]
  · intro n cfg env v hres hk hlu
    have hs : ({ config := cfg } : Strategy).resolveLoader
        (({ config := cfg } : Strategy).childValue v "IS_NONE__" .str none) =
        .ok .basicStr := rfl
    have hip : isPresent (n + 1) { config := cfg } env
        (({ config := cfg } : Strategy).childValue v "IS_NONE__" .str none) =
        some (.ok true) := by
      simp [isPresent, hs, hk]
    have hload : load (n + 1) { config := cfg } env
        (({ config := cfg } : Strategy).childValue v "IS_NONE__" .str none) =
        some (.ok (.vStr (env.vars.get
            (({ config := cfg } : Strategy).childValue v "IS_NONE__" .str none).varName),
          { env with bound := env.bound ++
            [((({ config := cfg } : Strategy).childValue v "IS_NONE__" .str none).varName,
              (({ config := cfg } : Strategy).childValue v "IS_NONE__" .str none).qualName)] })) := by
      simp only [load, hs]
      unfold VarBinding.bind
      rw [if_neg (by simp [hk]), hlu]
    conv_lhs => rw [load]
    simp only [hres, hs, hip, hload]
  · intro n cfg env v k x env' hres hk hresIn hip hload hfp
    have hs : ({ config := cfg } : Strategy).resolveLoader
        (({ config := cfg } : Strategy).childValue v "IS_NONE__" .str none) =
        .ok .basicStr := rfl
    have hsent : isPresent (n + 1) { config := cfg } env
        (({ config := cfg } : Strategy).childValue v "IS_NONE__" .str none) =
        some (.ok false) := by
      simp [isPresent, hs, hk]
    conv_lhs => rw [load]
    simp only [hres, hs, hsent, hresIn, hip, hload]
    simp [hfp]
  · intro n cfg env v k x env' hres hk hresIn hip hload hfp
    have hs : ({ config := cfg } : Strategy).resolveLoader
        (({ config := cfg } : Strategy).childValue v "IS_NONE__" .str none) =
        .ok .basicStr := rfl
    have hsent : isPresent (n + 1) { config := cfg } env
        (({ config := cfg } : Strategy).childValue v "IS_NONE__" .str none) =
        some (.ok false) := by
      simp [isPresent, hs, hk]
    conv_lhs => rw [load]
    simp only [hres, hs, hsent, hresIn, hip, hload]
    simp [hfp]
  · intro n cfg env v k hres hk hresIn hip
    have hs : ({ config := cfg } : Strategy).resolveLoader
        (({ config := cfg } : Strategy).childValue v "IS_NONE__" .str none) =
        .ok .basicStr := rfl
    have hsent : isPresent (n + 1) { config := cfg } env
        (({ config := cfg } : Strategy).childValue v "IS_NONE__" .str none) =
        some (.ok false) := by
      simp [isPresent, hs, hk]
    conv_lhs => rw [load]
    simp only [hres, hs, hsent, hresIn, hip]

/-- Witness for C3: for the optional position `str | None` with key `F`,
an input holding only the sentinel key `F_IS_NONE__` decodes to null
while claiming the sentinel. -/
theorem claim_C3_witness :
    load 3 { config := {} } { vars := [("F_IS_NONE__", "ignored")], bound := [] }
      { type := .union [.str, .noneType], varName := "F", qualName := "T.f",
        metadata := none } =
      some (.ok (.vNone,
        { vars := [("F_IS_NONE__", "ignored")],
          bound := [("F_IS_NONE__", "T.f[IS_NONE__]")] })) :=
  claim_C3.2.1 1 {} _ _ rfl rfl rfl

/-- C8: Optional totality. An optional position always reports present;
an Optional decode yields null or a non-null value, and the only way it
can surface `MissingRequiredVar` is by propagating it from the inner
decode it committed to (inner reported present) — Optional's own
operations (the sentinel claim, the presence checks) never raise
Missing; absence of all inner input yields null rather than an error. -/
theorem claim_C8 :
    (∀ (n : Nat) (st : Strategy) (env : VarBinding) (v : Value),
      st.resolveLoader v = .ok .optional →
      isPresent (n + 1) st env v = some (.ok true)) ∧
    (∀ (n : Nat) (cfg : Config) (env : VarBinding) (v : Value) (k q : String),
      ({ config := cfg } : Strategy).resolveLoader v = .ok .optional →
      load (n + 2) { config := cfg } env v =
        some (.error (.missingRequiredVar k q)) →
      isPresent (n + 1) { config := cfg } env
          { v with type := v.type.removeOptional } = some (.ok true) ∧
      load (n + 1) { config := cfg } env { v with type := v.type.removeOptional } =
        some (.error (.missingRequiredVar k q))) ∧
    (∀ (n : Nat) (cfg : Config) (env : VarBinding) (v : Value) (k : LoaderKind),
      ({ config := cfg } : Strategy).resolveLoader v = .ok .optional →
      env.vars.hasKey
        (({ config := cfg } : Strategy).childValue v "IS_NONE__" .str none).varName = false →
      ({ config := cfg } : Strategy).resolveLoader
        { v with type := v.type.removeOptional } = .ok k →
      isPresent (n + 1) { config := cfg } env { v with type := v.type.removeOptional } =
        some (.ok false) →
      load (n + 2) { config := cfg } env v = some (.ok (.vNone, env))) := by
  refine ⟨?_, ?_, ?_⟩
  · intro n st env v hres
    simp [isPresent, hres]
  · intro n cfg env v k q hres h
    have hs : ({ config := cfg } : Strategy).resolveLoader
        (({ config := cfg } : Strategy).childValue v "IS_NONE__" .str none) =
        .ok .basicStr := rfl
    have hip : isPresent (n + 1) { config := cfg } env
        (({ config := cfg } : Strategy).childValue v "IS_NONE__" .str none) =
        some (.ok (env.vars.hasKey
          (({ config := cfg } : Strategy).childValue v "IS_NONE__" .str none).varName)) := by
      simp [isPresent, hs]
    conv_lhs at h => rw [load]
    simp only [hres, hs, hip] at h
    rcases hk : env.vars.hasKey
        (({ config := cfg } : Strategy).childValue v "IS_NONE__" .str none).varName with _ | _
    · -- sentinel absent: the inner branch produced the error
      rw [hk] at h
      simp only [Bool.false_eq_true, if_neg] at h
      split at h
      · -- resolve of the inner position failed: that error is Unsupported
        rename_i e heq
        rw [Strategy.resolveLoader, resolveFrom_eq_find] at heq
        split at heq
        · exact absurd heq (by simp)
        · injection heq with heq
          rw [← heq] at h
          exact absurd h (by simp)
      · -- inner resolved: case on the inner presence report
        rename_i ka heq
        split at h
        · exact Option.noConfusion h
        · rename_i e heq2
          obtain ⟨q2, t2, he⟩ := (isPresent_error_unsupported (n + 1)).1 _ _ _ _ heq2
          rw [he] at h
          exact absurd h (by simp)
        · -- inner present: the error must be the inner load's
          rename_i heq2
          refine ⟨heq2, ?_⟩
          split at h
          · exact Option.noConfusion h
          · rename_i e heq3
            injection h with h
            injection h with h
            rw [heq3, h]
          · rename_i p heq3
            split at h <;> exact absurd h (by simp)
        · -- inner not present: result is ok None, not an error
          simp at h
    · -- sentinel present: its claim cannot raise Missing
      rw [hk] at h
      simp only [if_pos] at h
      split at h
      · exact Option.noConfusion h
      · rename_i e heq
        injection h with h
        injection h with h
        subst h
        exact absurd heq (basicStr_no_missing (n + 1) _ env _ hs hk k q)
      · rename_i p heq
        exact absurd h (by simp)
  · intro n cfg env v k hres hk hresIn hip
    have hs : ({ config := cfg } : Strategy).resolveLoader
        (({ config := cfg } : Strategy).childValue v "IS_NONE__" .str none) =
        .ok .basicStr := rfl
    have hsent : isPresent (n + 1) { config := cfg } env
        (({ config := cfg } : Strategy).childValue v "IS_NONE__" .str none) =
        some (.ok false) := by
      simp [isPresent, hs, hk]
    conv_lhs => rw [load]
    simp only [hres, hs, hsent, hresIn, hip]

/-- Witness for C8: the optional position `str | None` with key `F`
reports present on any input, and decodes the empty input to null. -/
theorem claim_C8_witness :
    isPresent 3 defaultStrategy { vars := [], bound := [] }
      { type := .union [.str, .noneType], varName := "F", qualName := "T.f",
        metadata := none } = some (.ok true) ∧
    load 4 { config := {} } { vars := [], bound := [] }
      { type := .union [.str, .noneType], varName := "F", qualName := "T.f",
        metadata := none } =
      some (.ok (.vNone, { vars := [], bound := [] })) :=
  ⟨claim_C8.1 2 defaultStrategy _ _ rfl,
   claim_C8.2.2 2 {} _ _ .basicStr rfl rfl rfl rfl⟩

/-- C4: the sequence decode first decodes the optional-int LEN child
(its errors abort the list decode), then iterates indices from 0 while
the element is present or a declared length `N` keeps the loop alive —
the code's truthiness test `length and i < length` is equivalent to
"`N` was provided and `i < N`" — decoding each element in a footprint
scope: a zero-footprint element stops the loop without being collected,
otherwise the element is appended. Scenarios for
`{list: list[int] | None}`: `{}` gives null, `{LIST_LEN: "0"}` gives
`[]`, `{LIST_0: "1", LIST_1: "2"}` gives `[1, 2]`. -/
theorem claim_C4 :
    (∀ (n : Nat) (st : Strategy) (env : VarBinding) (v : Value) (t : Ty) (e : LoadError),
      v.type = .list t → st.resolveLoader v = .ok .listLoader →
      load n st env (st.childValue v "LEN" (.union [.int, .noneType]) none) =
        some (.error e) →
      load (n + 1) st env v = some (.error e)) ∧
    (∀ (l : Int) (i : Nat), (lengthCond (some l) i = true ↔ (i : Int) < l)) ∧
    (∀ i : Nat, lengthCond none i = false) ∧
    (∀ (n : Nat) (st : Strategy) (env : VarBinding) (parent : Value) (t : Ty)
       (len? : Option Int) (i : Nat) (acc : List Val),
      isPresent n st env (st.childValue parent (toString i) t none) = some (.ok false) →
      lengthCond len? i = false →
      seqLoop (n + 1) st env parent t len? i acc = some (.ok (acc, env))) ∧
    (∀ (n : Nat) (st : Strategy) (env : VarBinding) (parent : Value) (t : Ty)
       (len? : Option Int) (i : Nat) (acc : List Val) (p : Bool) (x : Val)
       (env' : VarBinding),
      isPresent n st env (st.childValue parent (toString i) t none) = some (.ok p) →
      (p ∨ lengthCond len? i = true) →
      load n st env (st.childValue parent (toString i) t none) = some (.ok (x, env')) →
      footprint env env' = 0 →
      seqLoop (n + 1) st env parent t len? i acc = some (.ok (acc, env'))) ∧
    (∀ (n : Nat) (st : Strategy) (env : VarBinding) (parent : Value) (t : Ty)
       (len? : Option Int) (i : Nat) (acc : List Val) (p : Bool) (x : Val)
       (env' : VarBinding),
      isPresent n st env (st.childValue parent (toString i) t none) = some (.ok p) →
      (p ∨ lengthCond len? i = true) →
      load n st env (st.childValue parent (toString i) t none) = some (.ok (x, env')) →
      footprint env env' ≠ 0 →
      seqLoop (n + 1) st env parent t len? i acc =
        seqLoop n st env' parent t len? (i + 1) (acc ++ [x])) ∧
    fromEnv 25 listDataTy [] = some (.ok (.vRecord "TestData" [("list", .vNone)])) ∧
    fromEnv 25 listDataTy [("LIST_LEN", "0")] =
      some (.ok (.vRecord "TestData" [("list", .vList [])])) ∧
    fromEnv 25 listDataTy [("LIST_0", "1"), ("LIST_1", "2")] =
      some (.ok (.vRecord "TestData"
        [("list", .vList [.vInt 1, .vInt 2])])) := by
  refine ⟨?_, ?_, ?_, ?_, ?_, ?_, rfl, rfl, rfl⟩
  · intro n st env v t e hty hres hlen
    conv_lhs => rw [load]
    simp only [hres, hty, hlen]
  · intro l i
    simp only [lengthCond]
    constructor
    · intro h
      simp only [decide_eq_true_eq] at h
      omega
    · intro h
      simp only [decide_eq_true_eq]
      omega
  · intro i
    rfl
  · intro n st env parent t len? i acc hip hcond
    simp [seqLoop, hip, hcond]
  · intro n st env parent t len? i acc p x env' hip hcond hload hfp
    have hc : (p ∨ lengthCond len? i) := by
      rcases hcond with h | h
      · exact Or.inl h
      · exact Or.inr (by simp [h])
    simp [seqLoop, hip, hc, hload, hfp]
  · intro n st env parent t len? i acc p x env' hip hcond hload hfp
    have hc : (p ∨ lengthCond len? i) := by
      rcases hcond with h | h
      · exact Or.inl h
      · exact Or.inr (by simp [h])
    simp [seqLoop, hip, hc, hload, hfp]

/-- Witness for C4: for a list-of-int position with key `L` and input
`{L_0: "1"}`, element 0 is present, decodes with footprint 1 and is
collected; element 1 is absent with no declared length, so the loop
returns the collected `[1]`. -/
theorem claim_C4_witness :
    seqLoop 4 defaultStrategy { vars := [("L_0", "1")], bound := [] }
      { type := .list .int, varName := "L", qualName := "T.l", metadata := none }
      .int none 0 [] =
      seqLoop 3 defaultStrategy { vars := [("L_0", "1")], bound := [("L_0", "T.l[0]")] }
        { type := .list .int, varName := "L", qualName := "T.l", metadata := none }
        .int none 1 [.vInt 1] ∧
    seqLoop 3 defaultStrategy { vars := [("L_0", "1")], bound := [("L_0", "T.l[0]")] }
      { type := .list .int, varName := "L", qualName := "T.l", metadata := none }
      .int none 1 [.vInt 1] =
      some (.ok ([.vInt 1],
        { vars := [("L_0", "1")], bound := [("L_0", "T.l[0]")] })) :=
  ⟨claim_C4.2.2.2.2.2.1 3 defaultStrategy _ _ .int none 0 [] true (.vInt 1)
      { vars := [("L_0", "1")], bound := [("L_0", "T.l[0]")] }
      rfl (Or.inl rfl) rfl (by decide),
   claim_C4.2.2.2.1 2 defaultStrategy _ _ .int none 1 [.vInt 1] rfl rfl⟩

/-- Child-position derivation only reads the parent's variable key,
qualified name and dataclass-ness: parents agreeing on those yield the
same child position. -/
theorem childValue_congr (st : Strategy) (p p' : Value) (ref : String) (ty : Ty)
    (md : Option Metadata) (h1 : p.varName = p'.varName)
    (h2 : p.qualName = p'.qualName)
    (h3 : p.type.isDataclass = p'.type.isDataclass) :
    st.childValue p ref ty md = st.childValue p' ref ty md := by
  simp [Strategy.childValue, Strategy.childVarName, Strategy.childQualName, h1, h2, h3]

/-- The any-length tuple while-loop is the list while-loop: the two
verbatim-duplicated loops compute identical results, for any parents
agreeing on key, qualified name and dataclass-ness. -/
theorem tupleLoop_eq_seqLoop :
    ∀ (fuel : Nat) (st : Strategy) (env : VarBinding) (p p' : Value) (t : Ty)
      (len? : Option Int) (i : Nat) (acc : List Val),
      p.varName = p'.varName → p.qualName = p'.qualName →
      p.type.isDataclass = p'.type.isDataclass →
      tupleLoop fuel st env p t len? i acc = seqLoop fuel st env p' t len? i acc := by
  intro fuel
  induction fuel with
  | zero => intros; rfl
  | succ n ih =>
    intro st env p p' t len? i acc h1 h2 h3
    have hcv : st.childValue p (toString i) t none =
        st.childValue p' (toString i) t none :=
      childValue_congr st p p' _ _ _ h1 h2 h3
    simp only [tupleLoop, seqLoop, hcv]
    have hrec : ∀ env2 acc2,
        tupleLoop n st env2 p t len? (i + 1) acc2 =
          seqLoop n st env2 p' t len? (i + 1) acc2 :=
      fun env2 acc2 => ih st env2 p p' t len? (i + 1) acc2 h1 h2 h3
    simp only [hrec]

/-- Wrapping loop results as a tuple is `retuple` of wrapping them as a
list. -/
theorem wrapTuple_eq_retuple_wrapList
    (o : Option (Except LoadError (List Val × VarBinding))) :
    (match o with
      | none => none
      | some (.error e) => some (.error e)
      | some (.ok (items, env2)) => some (.ok (Val.vTuple items, env2))) =
    retuple (match o with
      | none => none
      | some (.error e) => some (.error e)
      | some (.ok (items, env2)) => some (.ok (Val.vList items, env2))) := by
  rcases o with _ | el
  · rfl
  · rcases el with e | ⟨items, env2⟩ <;> simp [retuple, Except.map]

/-- C9: the any-length tuple decode follows the same algorithm as the
homogeneous-sequence decode — optional-int LEN child first, then the
footprint-guarded index loop — returning the collected elements as a
tuple instead of a list; its `is_present` is always true, and the empty
tuple is produced from empty input. -/
theorem claim_C9 :
    (∀ (fuel : Nat) (st : Strategy) (env : VarBinding) (p p' : Value) (t : Ty)
       (len? : Option Int) (i : Nat) (acc : List Val),
      p.varName = p'.varName → p.qualName = p'.qualName →
      p.type.isDataclass = p'.type.isDataclass →
      tupleLoop fuel st env p t len? i acc = seqLoop fuel st env p' t len? i acc) ∧
    (∀ (n : Nat) (st : Strategy) (env : VarBinding) (key qual : String)
       (md : Option Metadata) (t : Ty),
      st.resolveLoader
        { type := .anyTuple t, varName := key, qualName := qual, metadata := md } =
        .ok .anyTupleLoader →
      st.resolveLoader
        { type := .list t, varName := key, qualName := qual, metadata := md } =
        .ok .listLoader →
      load (n + 1) st env
          { type := .anyTuple t, varName := key, qualName := qual, metadata := md } =
        retuple (load (n + 1) st env
          { type := .list t, varName := key, qualName := qual, metadata := md })) ∧
    (∀ (n : Nat) (st : Strategy) (env : VarBinding) (v : Value),
      st.resolveLoader v = .ok .anyTupleLoader →
      isPresent (n + 1) st env v = some (.ok true)) ∧
    fromEnv 25 anyTupleDataTy [] =
      some (.ok (.vRecord "TestData" [("basic_tuple", .vTuple [])])) ∧
    fromEnv 25 anyTupleDataTy [("BASIC_TUPLE_0", "100"), ("BASIC_TUPLE_1", "200")] =
      some (.ok (.vRecord "TestData"
        [("basic_tuple", .vTuple [.vInt 100, .vInt 200])])) := by
  refine ⟨tupleLoop_eq_seqLoop, ?_, ?_, rfl, rfl⟩
  · intro n st env key qual md t hresT hresL
    have hcvLEN : st.childValue
        { type := Ty.anyTuple t, varName := key, qualName := qual, metadata := md }
        "LEN" (.union [.int, .noneType]) none =
        st.childValue
          { type := Ty.list t, varName := key, qualName := qual, metadata := md }
          "LEN" (.union [.int, .noneType]) none :=
      childValue_congr _ _ _ _ _ _ rfl rfl rfl
    have hcv0 : st.childValue
        { type := Ty.anyTuple t, varName := key, qualName := qual, metadata := md }
        (toString 0) t none =
        st.childValue
          { type := Ty.list t, varName := key, qualName := qual, metadata := md }
          (toString 0) t none :=
      childValue_congr _ _ _ _ _ _ rfl rfl rfl
    conv_lhs => rw [load]
    conv_rhs => rw [load]
    simp only [hresT, hresL, hcvLEN, hcv0]
    rcases hlen : load n st env
        (st.childValue
          { type := Ty.list t, varName := key, qualName := qual, metadata := md }
          "LEN" (.union [.int, .noneType]) none) with _ | el
    · simp [retuple, hlen, Except.map]
    · rcases el with e | ⟨lv, env1⟩
      · simp [retuple, hlen, Except.map]
      · simp only [hlen]
        rcases hitem : st.resolveLoader
            (st.childValue
              { type := Ty.list t, varName := key, qualName := qual, metadata := md }
              (toString 0) t none) with e | k
        · simp [hitem, retuple, Except.map]
        · simp only [hitem]
          rw [tupleLoop_eq_seqLoop n st env1
            { type := Ty.anyTuple t, varName := key, qualName := qual, metadata := md }
            { type := Ty.list t, varName := key, qualName := qual, metadata := md }
            t _ 0 [] rfl rfl rfl]
          exact wrapTuple_eq_retuple_wrapList _
  · intro n st env v hres
    simp [isPresent, hres]

/-- Witness for C9: the two loops agree at a concrete input, and
an any-length tuple decode equals the retupled list decode for the
int-element position with key `T`. -/
theorem claim_C9_witness :
    tupleLoop 3 defaultStrategy { vars := [], bound := [] }
      { type := .anyTuple .int, varName := "T", qualName := "q", metadata := none }
      .int none 0 [] =
      seqLoop 3 defaultStrategy { vars := [], bound := [] }
        { type := .list .int, varName := "T", qualName := "q", metadata := none }
        .int none 0 [] ∧
    load 9 defaultStrategy { vars := [], bound := [] }
      { type := .anyTuple .int, varName := "T", qualName := "q", metadata := none } =
      retuple (load 9 defaultStrategy { vars := [], bound := [] }
        { type := .list .int, varName := "T", qualName := "q", metadata := none }) :=
  ⟨claim_C9.1 3 defaultStrategy _ _ _ .int none 0 [] rfl rfl rfl,
   claim_C9.2.1 8 defaultStrategy _ "T" "q" none .int rfl rfl⟩

/-- The required-fields presence loop reads only each field's name and
type and the parent's key, qualified name and dataclass-ness: stripping
the fields' metadata (and exchanging such a parent) changes nothing. -/
theorem requiredPresent_strip :
    ∀ (fuel : Nat) (st : Strategy) (env : VarBinding) (p p' : Value)
      (fields : List Field),
      p.varName = p'.varName → p.qualName = p'.qualName →
      p.type.isDataclass = p'.type.isDataclass →
      requiredPresent fuel st env p (fields.map stripFieldMeta) =
        requiredPresent fuel st env p' fields := by
  intro fuel
  induction fuel with
  | zero => intros; rfl
  | succ n ih =>
    intro st env p p' fields h1 h2 h3
    cases fields with
    | nil => rfl
    | cons f rest =>
      obtain ⟨fn, ft, fd, fm⟩ := f
      have hcv : st.childValue p fn ft none = st.childValue p' fn ft none :=
        childValue_congr st p p' _ _ _ h1 h2 h3
      simp only [List.map_cons, requiredPresent, stripFieldMeta, Field.name, Field.ty, hcv]
      rw [ih st env p p' rest h1 h2 h3]

/-- Metadata erasure commutes with the required-field filter:
`stripFieldMeta` preserves `hasDefault`. -/
theorem filter_required_strip (fields : List Field) :
    (fields.map stripFieldMeta).filter (fun f => ¬ f.hasDefault) =
      (fields.filter (fun f => ¬ f.hasDefault)).map stripFieldMeta := by
  rw [List.filter_map]
  congr 1

/-- C10: `DataClassLoader.is_present` derives each required field's
child position from the parent key and field name WITHOUT applying the
field's `fromenv` metadata override: presence of a record is invariant
under erasing all field metadata. Consequently, for `R = {f: str}` whose
required field carries the override key `OVR`: under input `{F: "x"}`
the record reports present yet decode raises MissingRequiredVar for
`OVR`; under input `{OVR: "x"}` the record reports absent although the
override key is in the input. -/
theorem claim_C10 :
    (∀ (n : Nat) (cfg : Config) (env : VarBinding) (rname : String)
       (fields : List Field) (key qual : String) (md : Option Metadata),
      isPresent n { config := cfg } env
          { type := .record rname (fields.map stripFieldMeta), varName := key,
            qualName := qual, metadata := md } =
        isPresent n { config := cfg } env
          { type := .record rname fields, varName := key, qualName := qual,
            metadata := md }) ∧
    isPresent 3 defaultStrategy { vars := [("F", "x")], bound := [] }
      (defaultStrategy.rootValue overrideRecTy) = some (.ok true) ∧
    fromEnv 20 overrideRecTy [("F", "x")] =
      some (.error (.missingRequiredVar "OVR" "R.f")) ∧
    isPresent 3 defaultStrategy { vars := [("OVR", "x")], bound := [] }
      (defaultStrategy.rootValue overrideRecTy) = some (.ok false) ∧
    EnvVars.hasKey [("OVR", "x")] "OVR" = true := by
  refine ⟨?_, rfl, rfl, rfl, rfl⟩
  intro n cfg env rname fields key qual md
  cases n with
  | zero => rfl
  | succ m =>
    rcases md with _ | mm
    · have hres1 : ({ config := cfg } : Strategy).resolveLoader
          { type := .record rname (fields.map stripFieldMeta), varName := key,
            qualName := qual, metadata := none } = .ok .dataClass := rfl
      have hres2 : ({ config := cfg } : Strategy).resolveLoader
          { type := .record rname fields, varName := key, qualName := qual,
            metadata := none } = .ok .dataClass := rfl
      simp only [isPresent, hres1, hres2, filter_required_strip]
      exact requiredPresent_strip m _ env _ _ _ rfl rfl rfl
    · rcases hml : mm.load with _ | f
      · have hres1 : ({ config := cfg } : Strategy).resolveLoader
            { type := .record rname (fields.map stripFieldMeta), varName := key,
              qualName := qual, metadata := some mm } = .ok .dataClass := by
          simp [Strategy.resolveLoader, resolveFrom, defaultLoaders, canLoad, hml,
            Ty.isOptional, Ty.isDataclass]
        have hres2 : ({ config := cfg } : Strategy).resolveLoader
            { type := .record rname fields, varName := key, qualName := qual,
              metadata := some mm } = .ok .dataClass := by
          simp [Strategy.resolveLoader, resolveFrom, defaultLoaders, canLoad, hml,
            Ty.isOptional, Ty.isDataclass]
        simp only [isPresent, hres1, hres2, filter_required_strip]
        exact requiredPresent_strip m _ env _ _ _ rfl rfl rfl
      · have hres1 : ({ config := cfg } : Strategy).resolveLoader
            { type := .record rname (fields.map stripFieldMeta), varName := key,
              qualName := qual, metadata := some mm } = .ok .custom := by
          simp [Strategy.resolveLoader, resolveFrom, defaultLoaders, canLoad, hml]
        have hres2 : ({ config := cfg } : Strategy).resolveLoader
            { type := .record rname fields, varName := key, qualName := qual,
              metadata := some mm } = .ok .custom := by
          simp [Strategy.resolveLoader, resolveFrom, defaultLoaders, canLoad, hml]
        simp only [isPresent, hres1, hres2]

/-- Witness for C10: metadata-invariance applied to the concrete record
`R` whose field `f` carries override `OVR`: erasing the override leaves
is_present unchanged on the input `{OVR: "x"}`. -/
theorem claim_C10_witness :
    isPresent 3 { config := {} } { vars := [("OVR", "x")], bound := [] }
      { type := .record "R" ([.mk "f" .str none (some (.asString "OVR"))].map
          stripFieldMeta), varName := "", qualName := "R", metadata := none } =
      isPresent 3 { config := {} } { vars := [("OVR", "x")], bound := [] }
        { type := .record "R" [.mk "f" .str none (some (.asString "OVR"))],
          varName := "", qualName := "R", metadata := none } :=
  claim_C10.1 3 {} _ "R" _ "" "R" none

end Fromenv
